import Mathlib

/-!
# Credit report ingestion: `server/index.js`

A shallow embedding of the upload handler `app.post('/api/upload', ...)` of
`server/index.js` and of the record shape declared in `server/models/CreditReport.js`.

* `Xml` is the shape of the values the XML parser delivers with `explicitArray: false`:
  the text of an element (the empty string for an empty element), an object keyed by child
  tag, or an array for a tag that repeats under one parent.  `undefined` is not a parser
  value: it only arises from reading a key that is not there, and is `none : Option Xml`.
* `JsNum` is a JavaScript number as `parseInt` / `parseFloat` produce it.  A finite number
  is kept as the exact rational value of the numeral that was read; the rounding of that
  value to a 64-bit float and the sign of zero are not represented.
* Code that can throw returns `Except JsError _`; the handler threads the file store and the
  persistence log explicitly (`World`).
-/

namespace CreditSea

/-! ## Values -/

/-- A value delivered by the XML parser. -/
inductive Xml where
  | str (s : String)
  | obj (fields : List (String × Xml))
  | arr (items : List Xml)

/-- A JavaScript number: not-a-number, an infinity, or a finite value. -/
inductive JsNum where
  | nan
  | inf (negative : Bool)
  | val (q : ℚ)
  deriving DecidableEq

/-- A thrown JavaScript error. -/
structure JsError where
  name : String
  message : String
  deriving DecidableEq

/-- The result object of the parser, or an object node: tag names with their values. -/
abbrev Obj := List (String × Xml)

/-- How the host converts an object node to a string (in a template literal, in `parseInt`,
in `parseFloat`): `some s` when the conversion yields `s`, `none` when it throws a
`TypeError`.  An ordinary object gives `"[object Object]"`; an object without a prototype, or
one whose `toString` key is shadowed by a child tag, throws.  Which of these the parser
builds is fixed by the parser library, which is not part of the sources, so the conversion
is a parameter of everything that uses it. -/
abbrev ObjToString := Obj → Option String

/-- The conversion of an ordinary object. -/
def ordinaryObject : ObjToString := fun _ => some "[object Object]"

/-- The conversion of an object without a prototype: it throws. -/
def nullPrototypeObject : ObjToString := fun _ => none

/-- Own-key lookup in an object. -/
def lookup (k : String) : Obj → Option Xml
  | [] => none
  | (k', v) :: rest => if k' = k then some v else lookup k rest

/-- JavaScript truthiness of a parser value: only the empty string is falsy. -/
def Xml.truthy : Xml → Bool
  | .str s => !s.data.isEmpty
  | .obj _ => true
  | .arr _ => true

/-- Truthiness of a value that may be `undefined`. -/
def truthy : Option Xml → Bool
  | none => false
  | some v => v.truthy

/-- Property read `v.k` for the tag names the handler reads.  None of them is `length`, an
index or a prototype member, so a string or an array has no such property. -/
def Xml.get (v : Xml) (k : String) : Option Xml :=
  match v with
  | .obj fs => lookup k fs
  | .str _ => none
  | .arr _ => none

/-- Optional chaining `v?.k`. -/
def optGet (v : Option Xml) (k : String) : Option Xml :=
  match v with
  | none => none
  | some x => x.get k

/-- The expression `v || ''`. -/
def orEmpty (v : Option Xml) : Xml :=
  if truthy v then v.getD (.str "") else .str ""

/-- The expression `v || '0'`. -/
def orZero (v : Option Xml) : Xml :=
  if truthy v then v.getD (.str "0") else .str "0"

mutual
/-- `ToString` of a parser value. -/
def Xml.toStr (os : ObjToString) : Xml → Option String
  | .str s => some s
  | .obj fs => os fs
  | .arr xs => joinStr os xs
/-- `Array.prototype.join` with the default separator. -/
def joinStr (os : ObjToString) : List Xml → Option String
  | [] => some ""
  | [x] => x.toStr os
  | x :: y :: rest => do
    let a ← x.toStr os
    let b ← joinStr os (y :: rest)
    pure (a ++ "," ++ b)
end

/-- The `TypeError` of a failed conversion to a primitive. -/
def typeError : JsError :=
  ⟨"TypeError", "Cannot convert object to primitive value"⟩

/-- `ToString` of a value that may be `undefined`, as a throwing computation. -/
def toStringJs (os : ObjToString) : Option Xml → Except JsError String
  | none => .ok "undefined"
  | some v =>
    match v.toStr os with
    | some s => .ok s
    | none => .error typeError

/-! ## Strings and numerals -/

/-- White space and line terminators of ECMAScript, the characters `trim`, `parseInt` and
`parseFloat` strip. -/
def isWhiteSpace (c : Char) : Bool :=
  let n := c.toNat
  n == 0x09 || n == 0x0A || n == 0x0B || n == 0x0C || n == 0x0D || n == 0x20 || n == 0xA0 ||
  n == 0x1680 || (decide (0x2000 ≤ n) && decide (n ≤ 0x200A)) || n == 0x2028 || n == 0x2029 ||
  n == 0x202F || n == 0x205F || n == 0x3000 || n == 0xFEFF

/-- Strip leading white space. -/
def trimStart (l : List Char) : List Char := l.dropWhile isWhiteSpace

/-- Strip trailing white space. -/
def trimEnd (l : List Char) : List Char := (l.reverse.dropWhile isWhiteSpace).reverse

/-- `String.prototype.trim`. -/
def trim (s : String) : String := ⟨trimEnd (trimStart s.data)⟩

/-- A decimal digit. -/
def isDigit (c : Char) : Bool := decide (48 ≤ c.toNat) && decide (c.toNat ≤ 57)

/-- The number denoted by a run of decimal digits, most significant first. -/
def digitsValue (z : List Char) : ℕ := z.foldl (fun a c => 10 * a + (c.toNat - 48)) 0

/-- An optional sign: whether it is a minus, and the rest of the input. -/
def takeSign : List Char → Bool × List Char
  | '-' :: r => (true, r)
  | '+' :: r => (false, r)
  | r => (false, r)

/-- The value `q`, negated when `negative`. -/
def signed (negative : Bool) (q : ℚ) : ℚ := if negative then -q else q

/-- The longest run of decimal digits at the head of `r`, as a number; `NaN` when `r` does
not start with a digit. -/
def integerLiteral (negative : Bool) (r : List Char) : JsNum :=
  let z := r.takeWhile isDigit
  if z.isEmpty then .nan else .val (signed negative (digitsValue z))

/-- `parseInt(s, 10)` on a string: leading white space is skipped, an optional sign is read,
then the longest run of decimal digits; no digit gives `NaN`. -/
def parseIntStr (s : String) : JsNum :=
  let (negative, r) := takeSign (trimStart s.data)
  integerLiteral negative r

/-- An exponent part `e`/`E`, optional sign, at least one digit; `0` when there is none. -/
def exponentPart : List Char → ℤ
  | c :: r =>
    if c = 'e' ∨ c = 'E' then
      let (negative, r') := takeSign r
      let z := r'.takeWhile isDigit
      if z.isEmpty then 0 else if negative then -(digitsValue z : ℤ) else (digitsValue z : ℤ)
    else 0
  | [] => 0

/-- The fraction digits after a decimal point, and the rest of the input. -/
def fractionPart : List Char → List Char × List Char
  | '.' :: r => (r.takeWhile isDigit, r.dropWhile isDigit)
  | r => ([], r)

/-- The longest decimal literal at the head of `r` (digits, an optional point with digits,
an optional exponent; at least one digit before the exponent), as a number; `NaN` when there
is none. -/
def decimalLiteral (negative : Bool) (r : List Char) : JsNum :=
  let ip := r.takeWhile isDigit
  let (fp, rest) := fractionPart (r.dropWhile isDigit)
  if ip.isEmpty && fp.isEmpty then .nan
  else
    .val (signed negative
      ((digitsValue (ip ++ fp) : ℚ) * (10 : ℚ) ^ (exponentPart rest - (fp.length : ℤ))))

/-- `parseFloat(s)` on a string: leading white space is skipped, an optional sign is read,
then the longest prefix that is `Infinity` or a decimal literal (digits, an optional point
with digits, an optional exponent); no such prefix gives `NaN`. -/
def parseFloatStr (s : String) : JsNum :=
  let (negative, r) := takeSign (trimStart s.data)
  if "Infinity".data.isPrefixOf r then .inf negative else decimalLiteral negative r

/-- The call `parseInt(v, 10)`. -/
def parseInt (os : ObjToString) (v : Option Xml) : Except JsError JsNum :=
  (toStringJs os v).map parseIntStr

/-- The call `parseFloat(v)`. -/
def parseFloat (os : ObjToString) (v : Option Xml) : Except JsError JsNum :=
  (toStringJs os v).map parseFloatStr

/-! ## The record (`models/CreditReport.js`, `creditData` in `index.js`) -/

/-- The `basicDetails` part of the record. -/
structure BasicDetails where
  name : String
  mobilePhone : Xml
  pan : Xml
  creditScore : JsNum

/-- The `reportSummary` part of the record. -/
structure ReportSummary where
  totalAccounts : JsNum
  activeAccounts : JsNum
  closedAccounts : JsNum
  currentBalanceAmount : JsNum
  securedAccountsAmount : JsNum
  unsecuredAccountsAmount : JsNum
  lastSevenDaysCreditEnquiries : JsNum

/-- One element of `creditAccounts`. -/
structure CreditAccount where
  type : Xml
  bank : Xml
  accountNumber : Xml
  address : String
  amountOverdue : JsNum
  currentBalance : JsNum

/-- The object `creditData` handed to the model constructor. -/
structure CreditData where
  basicDetails : BasicDetails
  reportSummary : ReportSummary
  creditAccounts : List CreditAccount

/-- The error thrown at line 58. -/
def schemaError : JsError :=
  ⟨"Error", "Invalid XML format: missing <INProfileResponse> root element."⟩

/-- Line 76: `applicant ? (First_Name || '') + ' ' + (Last_Name || '') trimmed : ''`,
the two parts converted to strings by the template literal, in that order. -/
def nameOf (os : ObjToString) (applicant : Option Xml) : Except JsError String :=
  if truthy applicant then do
    let first ← toStringJs os (some (orEmpty (optGet applicant "First_Name")))
    let last ← toStringJs os (some (orEmpty (optGet applicant "Last_Name")))
    pure (trim (first ++ " " ++ last))
  else pure ""

/-- Lines 79 and 82 to 84: `node ? parseInt(node.key, 10) : 0`. -/
def intField (os : ObjToString) (node : Option Xml) (key : String) : Except JsError JsNum :=
  if truthy node then parseInt os (optGet node key) else pure (.val 0)

/-- Lines 85 to 87: `node ? parseFloat(node.key) : 0`. -/
def floatField (os : ObjToString) (node : Option Xml) (key : String) : Except JsError JsNum :=
  if truthy node then parseFloat os (optGet node key) else pure (.val 0)

/-- Lines 96 to 103: the callback of `accountDetails.map`. -/
def accountOfElement (os : ObjToString) (acc : Xml) : Except JsError CreditAccount := do
  let type := orEmpty (acc.get "Account_Type")
  let bank := orEmpty (acc.get "Subscriber_Name")
  let accountNumber := orEmpty (acc.get "Account_Number")
  let amountOverdue ← parseFloat os (some (orZero (acc.get "Amount_Past_Due")))
  let currentBalance ← parseFloat os (some (orZero (acc.get "Current_Balance")))
  pure
    { type := type, bank := bank, accountNumber := accountNumber, address := "",
      amountOverdue := amountOverdue, currentBalance := currentBalance }

/-- Lines 106 to 113: the object pushed in the branch for a value that is not an array. -/
def accountOfSingle (os : ObjToString) (accountDetails : Xml) :
    Except JsError CreditAccount := do
  let type := orEmpty (accountDetails.get "Account_Type")
  let bank := orEmpty (accountDetails.get "Subscriber_Name")
  let accountNumber := orEmpty (accountDetails.get "Account_Number")
  let amountOverdue ← parseFloat os (some (orZero (accountDetails.get "Amount_Past_Due")))
  let currentBalance ← parseFloat os (some (orZero (accountDetails.get "Current_Balance")))
  pure
    { type := type, bank := bank, accountNumber := accountNumber, address := "",
      amountOverdue := amountOverdue, currentBalance := currentBalance }

/-- `Array.prototype.map` with a callback that can throw: the elements are visited in
order and the first throw ends the loop. -/
def arrayMap {α β : Type} (f : α → Except JsError β) : List α → Except JsError (List β)
  | [] => .ok []
  | x :: xs =>
    match f x with
    | .error e => .error e
    | .ok y =>
      match arrayMap f xs with
      | .error e => .error e
      | .ok ys => .ok (y :: ys)

/-- Lines 90 to 115: `creditAccounts` starts empty; a truthy `accountDetails` is mapped
element by element when it is an array and contributes one pushed record otherwise. -/
def creditAccounts (os : ObjToString) (accountDetails : Option Xml) :
    Except JsError (List CreditAccount) :=
  match accountDetails with
  | none => pure []
  | some (.arr items) => arrayMap (accountOfElement os) items
  | some v =>
    if v.truthy then do
      let a ← accountOfSingle os v
      pure ([] ++ [a])
    else pure []

/-- Lines 56 to 59: `root = result.INProfileResponse`, thrown out when falsy. -/
def rootOf (result : Obj) : Except JsError Xml :=
  match lookup "INProfileResponse" result with
  | some root => if root.truthy then .ok root else .error schemaError
  | none => .error schemaError

/-- Line 62: `root.Current_Application?.Current_Application_Details?.Current_Applicant_Details`. -/
def applicant (root : Xml) : Option Xml :=
  optGet (optGet (root.get "Current_Application") "Current_Application_Details")
    "Current_Applicant_Details"

/-- Line 64: `root.SCORE`. -/
def score (root : Xml) : Option Xml := root.get "SCORE"

/-- Line 66: `root.CAIS_Account?.CAIS_Summary`. -/
def caisSummary (root : Xml) : Option Xml := optGet (root.get "CAIS_Account") "CAIS_Summary"

/-- Line 67: `caisSummary?.Credit_Account`. -/
def creditAccountSummary (root : Xml) : Option Xml := optGet (caisSummary root) "Credit_Account"

/-- Line 68: `caisSummary?.Total_Outstanding_Balance`. -/
def totalOutstanding (root : Xml) : Option Xml :=
  optGet (caisSummary root) "Total_Outstanding_Balance"

/-- Line 70: `root.CAIS_Account?.CAIS_Account_DETAILS`. -/
def accountDetails (root : Xml) : Option Xml :=
  optGet (root.get "CAIS_Account") "CAIS_Account_DETAILS"

/-- Lines 62 to 115: from `root` to the finished `creditData`.  The fields are evaluated in
the order of the object literal, the accounts last. -/
def creditDataOf (os : ObjToString) (root : Xml) : Except JsError CreditData := do
  let name ← nameOf os (applicant root)
  let mobilePhone := orEmpty (optGet (applicant root) "MobilePhoneNumber")
  let pan := orEmpty (optGet (applicant root) "IncomeTaxPan")
  let creditScore ← intField os (score root) "BureauScore"
  let totalAccounts ← intField os (creditAccountSummary root) "CreditAccountTotal"
  let activeAccounts ← intField os (creditAccountSummary root) "CreditAccountActive"
  let closedAccounts ← intField os (creditAccountSummary root) "CreditAccountClosed"
  let currentBalanceAmount ← floatField os (totalOutstanding root) "Outstanding_Balance_All"
  let securedAccountsAmount ← floatField os (totalOutstanding root) "Outstanding_Balance_Secured"
  let unsecuredAccountsAmount ←
    floatField os (totalOutstanding root) "Outstanding_Balance_UnSecured"
  let accounts ← creditAccounts os (accountDetails root)
  pure
    { basicDetails :=
        { name := name, mobilePhone := mobilePhone, pan := pan, creditScore := creditScore },
      reportSummary :=
        { totalAccounts := totalAccounts, activeAccounts := activeAccounts,
          closedAccounts := closedAccounts, currentBalanceAmount := currentBalanceAmount,
          securedAccountsAmount := securedAccountsAmount,
          unsecuredAccountsAmount := unsecuredAccountsAmount,
          lastSevenDaysCreditEnquiries := .val 0 },
      creditAccounts := accounts }

/-- Lines 56 to 115 of the handler: from the parser result to `creditData`. -/
def creditData (os : ObjToString) (result : Obj) : Except JsError CreditData :=
  match rootOf result with
  | .error e => .error e
  | .ok root => creditDataOf os root

/-! ## The handler (`app.post('/api/upload', ...)`) -/

/-- What the handler can observe and change outside itself: the files in the upload
directory (path and content), the records handed to `save`, and the records stored. -/
structure World where
  files : List (String × String)
  handed : List CreditData
  stored : List CreditData

/-- The collaborators of the handler: the parser, the object conversion of the host, and the
outcome of `save` (the new identifier, or the error it rejects with). -/
structure Env where
  objToString : ObjToString
  parseString : String → Except JsError (Option Obj)
  save : CreditData → Except JsError String

/-- The JSON body of a response. -/
inductive Body where
  | error (error : String)
  | processed (message : String) (id : String)
  deriving DecidableEq

/-- A response: status and body. -/
structure Response where
  status : ℕ
  body : Body
  deriving DecidableEq

/-- The error of a file operation on a path that does not exist. -/
def noEntry (path : String) : JsError :=
  ⟨"Error", "ENOENT: no such file or directory, open " ++ path⟩

/-- `fs.promises.readFile(path, 'utf-8')`. -/
def readFile (path : String) (w : World) : Except JsError String :=
  match w.files.lookup path with
  | some content => .ok content
  | none => .error (noEntry path)

/-- Whether a file exists at `path`. -/
def World.hasFile (w : World) (path : String) : Bool := (w.files.lookup path).isSome

/-- `fs.promises.unlink(path)`. -/
def unlink (path : String) (w : World) : Except JsError World :=
  if w.hasFile path then .ok { w with files := w.files.filter (fun f => f.1 != path) }
  else .error (noEntry path)

/-- The error of reading a property of `null`. -/
def nullError : JsError :=
  ⟨"TypeError", "Cannot read properties of null (reading 'INProfileResponse')"⟩

/-- Lines 118 to 121: the record is handed to the model and saved, then the uploaded file is
unlinked. -/
def saveAndUnlink (env : Env) (path : String) (w : World) (data : CreditData) :
    Except JsError String × World :=
  match env.save data with
  | .error e => (.error e, { w with handed := w.handed ++ [data] })
  | .ok id =>
    match unlink path { w with handed := w.handed ++ [data], stored := w.stored ++ [data] } with
    | .error e =>
      (.error e, { w with handed := w.handed ++ [data], stored := w.stored ++ [data] })
    | .ok w3 => (.ok id, w3)

/-- Lines 46 to 123, the body of `try` after the file check: its outcome (the identifier of
the stored report, or the error thrown) and the world it leaves. -/
def tryBlock (env : Env) (path : String) (w : World) : Except JsError String × World :=
  match readFile path w with
  | .error e => (.error e, w)
  | .ok xmlData =>
    match env.parseString xmlData with
    | .error e => (.error e, w)
    | .ok none => (.error nullError, w)
    | .ok (some result) =>
      match creditData env.objToString result with
      | .error e => (.error e, w)
      | .ok data => saveAndUnlink env path w data

/-- The handler: `file` is `req.file.path` when the request carries a file. -/
def upload (env : Env) (file : Option String) (w : World) : Response × World :=
  match file with
  | none => (⟨400, .error "No file uploaded"⟩, w)
  | some path =>
    match tryBlock env path w with
    | (.ok id, w') => (⟨200, .processed "Report processed successfully" id⟩, w')
    | (.error e, w') => (⟨500, .error ("Error processing file: " ++ e.message)⟩, w')

/-! ## Vocabulary of the statements -/

/-- The last `k` decimal digits of `x`, most significant first. -/
def fractionDigits : ℕ → ℕ → List Char
  | 0, _ => []
  | k + 1, x => fractionDigits k (x / 10) ++ [Nat.digitChar (x % 10)]

/-- The decimal numeral of `m / 10 ^ k` written with exactly `k` fraction digits (no point
when `k = 0`), after a minus sign when `negative`. -/
def decimalNumeral (negative : Bool) (m k : ℕ) : String :=
  ⟨(if negative then ['-'] else []) ++ (toString (m / 10 ^ k)).data ++
    (if k = 0 then [] else '.' :: fractionDigits k m)⟩

/-- The value the numeral `decimalNumeral negative m k` denotes. -/
def decimalValue (negative : Bool) (m k : ℕ) : ℚ :=
  if negative then -((m : ℚ) / 10 ^ k) else (m : ℚ) / 10 ^ k

/-- The record all of whose fields are the defaults. -/
def defaultRecord : CreditData :=
  { basicDetails := { name := "", mobilePhone := .str "", pan := .str "", creditScore := .val 0 },
    reportSummary :=
      { totalAccounts := .val 0, activeAccounts := .val 0, closedAccounts := .val 0,
        currentBalanceAmount := .val 0, securedAccountsAmount := .val 0,
        unsecuredAccountsAmount := .val 0, lastSevenDaysCreditEnquiries := .val 0 },
    creditAccounts := [] }

/-- The account record all of whose fields are the defaults. -/
def defaultAccount : CreditAccount :=
  { type := .str "", bank := .str "", accountNumber := .str "", address := "",
    amountOverdue := .val 0, currentBalance := .val 0 }

/-- The source nodes of `creditAccounts`: the elements of an array, or the one value that is
not an array. -/
def accountNodes (root : Xml) : List Xml :=
  match accountDetails root with
  | none => []
  | some (.arr items) => items
  | some v => [v]

/-- The parser result `{ INProfileResponse: root }`. -/
def report (root : Xml) : Obj := [("INProfileResponse", root)]

/-- The parser result of `<Other/>`: well-formed, without the root of a report. -/
def otherDocument : Obj := [("Other", .str "")]

/-- The parser result of `<INProfileResponse/>`: the root is there and is the empty string. -/
def emptyRootDocument : Obj := report (.str "")

/-- The parser result of a report whose root only carries an attribute. -/
def bareRootDocument : Obj := report (.obj [("$", .obj [("version", .str "1")])])

/-- A report with one empty `<CAIS_Account_DETAILS/>` element. -/
def emptyAccountDocument : Obj :=
  report (.obj [("CAIS_Account", .obj [("CAIS_Account_DETAILS", .str "")])])

/-- A report whose `BureauScore` element carries an attribute, which the parser delivers as
an object with the text under `_` and the attributes under `$`. -/
def attributeScoreDocument : Obj :=
  report (.obj [("SCORE", .obj [("BureauScore",
    .obj [("_", .str "750"), ("$", .obj [("unit", .str "points")])])])])

/-- A report whose `Credit_Account` and `Total_Outstanding_Balance` are present and each
carry one sub-field only. -/
def partialSummaryDocument : Obj :=
  report (.obj [("CAIS_Account", .obj [("CAIS_Summary", .obj
    [("Credit_Account", .obj [("CreditAccountActive", .str "1")]),
     ("Total_Outstanding_Balance", .obj [("Outstanding_Balance_All", .str "50000")])])])])

/-- The applicant of the end-to-end scenario. -/
def ashaApplicant : Xml :=
  .obj [("First_Name", .str "Asha"), ("Last_Name", .str "Rao"),
    ("IncomeTaxPan", .str "ABCDE1234F")]

/-- The two account elements of the end-to-end scenario. -/
def ashaAccounts : List Xml :=
  [.obj [("Account_Type", .str "10"), ("Subscriber_Name", .str "First Bank"),
     ("Account_Number", .str "A-1"), ("Amount_Past_Due", .str "0"),
     ("Current_Balance", .str "30000")],
   .obj [("Account_Type", .str "51"), ("Subscriber_Name", .str "Second Bank"),
     ("Account_Number", .str "B-2"), ("Current_Balance", .str "20000")]]

/-- The root of the end-to-end scenario. -/
def ashaRoot : Xml :=
  .obj
    [("Current_Application", .obj [("Current_Application_Details", .obj
        [("Current_Applicant_Details", ashaApplicant)])]),
     ("SCORE", .obj [("BureauScore", .str "720")]),
     ("CAIS_Account", .obj
        [("CAIS_Summary", .obj
            [("Credit_Account", .obj
                [("CreditAccountTotal", .str "2"), ("CreditAccountActive", .str "1"),
                 ("CreditAccountClosed", .str "1")]),
             ("Total_Outstanding_Balance", .obj [("Outstanding_Balance_All", .str "50000")])]),
         ("CAIS_Account_DETAILS", .arr ashaAccounts)])]

/-- The parser result of the end-to-end scenario. -/
def ashaDocument : Obj := report ashaRoot

/-- Collaborators for the examples: ordinary objects, a parser that delivers `result`, and a
store that accepts every record. -/
def exampleEnv (result : Obj) : Env :=
  { objToString := ordinaryObject
    parseString := fun _ => .ok (some result)
    save := fun _ => .ok "id-1" }

/-- Collaborators whose parser rejects the bytes. -/
def malformedEnv : Env :=
  { objToString := ordinaryObject
    parseString := fun _ => .error ⟨"Error", "Unclosed root tag"⟩
    save := fun _ => .ok "id-1" }

/-- Collaborators whose store rejects every record. -/
def failingStoreEnv (result : Obj) : Env :=
  { objToString := ordinaryObject
    parseString := fun _ => .ok (some result)
    save := fun _ => .error ⟨"MongoError", "connection lost"⟩ }

/-- A world with one uploaded file and nothing stored. -/
def exampleWorld : World :=
  { files := [("uploads/tmp1", "<xml/>")], handed := [], stored := [] }

/-! ## Lemmas: exceptions -/

theorem bind_ok {α β : Type} {x : Except JsError α} {f : α → Except JsError β} {b : β} :
    (x >>= f) = .ok b ↔ ∃ a, x = .ok a ∧ f a = .ok b := by
  cases x <;> simp [bind, Except.bind]

theorem pure_ok {α : Type} {a b : α} : (pure a : Except JsError α) = .ok b ↔ a = b := by
  simp [pure, Except.pure]

theorem map_ok {α β : Type} {x : Except JsError α} {f : α → β} {b : β} :
    x.map f = .ok b ↔ ∃ a, x = .ok a ∧ f a = b := by
  cases x <;> simp [Except.map]

/-! ## Lemmas: numerals -/

theorem digitChar_spec (k : ℕ) (h : k < 10) :
    isDigit (Nat.digitChar k) = true ∧ (Nat.digitChar k).toNat - 48 = k := by
  interval_cases k <;> decide

theorem isDigit_bounds {c : Char} (h : isDigit c = true) : 48 ≤ c.toNat ∧ c.toNat ≤ 57 := by
  simpa [isDigit] using h

theorem isWhiteSpace_of_isDigit {c : Char} (h : isDigit c = true) : isWhiteSpace c = false := by
  have hb := isDigit_bounds h
  simp only [isWhiteSpace, Bool.or_eq_false_iff, beq_eq_false_iff_ne, ne_eq,
    Bool.and_eq_false_iff, decide_eq_false_iff_not]
  omega

theorem takeSign_of_isDigit {c : Char} (r : List Char) (h : isDigit c = true) :
    takeSign (c :: r) = (false, c :: r) := by
  have hb := isDigit_bounds h
  have h1 : c ≠ '-' := by rintro rfl; revert hb; decide
  have h2 : c ≠ '+' := by rintro rfl; revert hb; decide
  unfold takeSign
  split
  · simp_all
  · simp_all
  · rfl

theorem foldl_digits (l : List Char) (a : ℕ) :
    l.foldl (fun a c => 10 * a + (c.toNat - 48)) a = a * 10 ^ l.length + digitsValue l := by
  induction l generalizing a with
  | nil => simp [digitsValue]
  | cons c l ih =>
    simp only [List.foldl_cons, List.length_cons, digitsValue]
    rw [ih, ih (10 * 0 + (c.toNat - 48))]
    ring

theorem digitsValue_append (a b : List Char) :
    digitsValue (a ++ b) = digitsValue a * 10 ^ b.length + digitsValue b := by
  simp only [digitsValue, List.foldl_append]
  exact foldl_digits b _

theorem toDigitsCore_spec (fuel : ℕ) : ∀ (n : ℕ) (ds : List Char), n < fuel →
    ∃ pre, Nat.toDigitsCore 10 fuel n ds = pre ++ ds ∧ pre ≠ [] ∧
      (∀ c ∈ pre, isDigit c = true) ∧ digitsValue pre = n := by
  induction fuel with
  | zero => intro n ds h; omega
  | succ fuel ih =>
    intro n ds h
    have hd := digitChar_spec (n % 10) (Nat.mod_lt _ (by norm_num))
    by_cases h0 : n / 10 = 0
    · refine ⟨[Nat.digitChar (n % 10)], ?_, by simp, ?_, ?_⟩
      · simp [Nat.toDigitsCore, h0]
      · simpa using hd.1
      · simp [digitsValue, hd.2]; omega
    · obtain ⟨pre, hpre, -, hall, hv⟩ := ih (n / 10) (Nat.digitChar (n % 10) :: ds) (by omega)
      refine ⟨pre ++ [Nat.digitChar (n % 10)], ?_, by simp, ?_, ?_⟩
      · simp [Nat.toDigitsCore, h0, hpre]
      · intro c hc
        rcases List.mem_append.1 hc with hc | hc
        · exact hall c hc
        · simp at hc; subst hc; exact hd.1
      · rw [digitsValue_append, hv]
        simp [digitsValue, hd.2]; omega

/-- The numeral Lean prints for a natural number is a non-empty run of decimal digits that
denotes the number. -/
theorem repr_spec (n : ℕ) :
    (toString n).data ≠ [] ∧ (∀ c ∈ (toString n).data, isDigit c = true) ∧
      digitsValue (toString n).data = n := by
  obtain ⟨pre, hpre, hne, hall, hv⟩ := toDigitsCore_spec (n + 1) n [] (by omega)
  have : (toString n).data = pre := by
    show (Nat.repr n).data = pre
    simp [Nat.repr, Nat.toDigits, hpre, List.asString]
  rw [this]; exact ⟨hne, hall, hv⟩

theorem fractionDigits_spec (k : ℕ) : ∀ x : ℕ,
    (fractionDigits k x).length = k ∧ (∀ c ∈ fractionDigits k x, isDigit c = true) ∧
      digitsValue (fractionDigits k x) = x % 10 ^ k := by
  induction k with
  | zero => intro x; simp [fractionDigits, digitsValue, Nat.mod_one]
  | succ k ih =>
    intro x
    obtain ⟨hl, hall, hv⟩ := ih (x / 10)
    have hd := digitChar_spec (x % 10) (Nat.mod_lt _ (by norm_num))
    refine ⟨by simp [fractionDigits, hl], ?_, ?_⟩
    · intro c hc
      simp only [fractionDigits, List.mem_append, List.mem_singleton] at hc
      rcases hc with hc | hc
      · exact hall c hc
      · subst hc; exact hd.1
    · simp only [fractionDigits]
      rw [digitsValue_append, hv]
      simp only [digitsValue, List.foldl_cons, List.foldl_nil, List.length_singleton, hd.2]
      have h1 : x % 10 ^ (k + 1) = x % 10 + 10 * (x / 10 % 10 ^ k) := by
        rw [pow_succ, mul_comm (10 ^ k) 10, Nat.mod_mul]
      rw [h1]
      ring

theorem takeWhile_append_all {p : Char → Bool} (l rest : List Char)
    (h : ∀ c ∈ l, p c = true) : (l ++ rest).takeWhile p = l ++ rest.takeWhile p := by
  induction l with
  | nil => rfl
  | cons a l ih =>
    have ha : p a = true := h a (by simp)
    simp [List.takeWhile_cons, ha, ih (fun c hc => h c (by simp [hc]))]

theorem dropWhile_append_all {p : Char → Bool} (l rest : List Char)
    (h : ∀ c ∈ l, p c = true) : (l ++ rest).dropWhile p = rest.dropWhile p := by
  induction l with
  | nil => rfl
  | cons a l ih =>
    have ha : p a = true := h a (by simp)
    simp [List.dropWhile_cons, ha, ih (fun c hc => h c (by simp [hc]))]

/-! ## Lemmas: `parseInt` and `parseFloat` on text -/

theorem trimStart_cons {c : Char} (r : List Char) (h : isWhiteSpace c = false) :
    trimStart (c :: r) = c :: r := by
  simp [trimStart, List.dropWhile_cons, h]

theorem decimalLiteral_numeral (negative : Bool) (ip : List Char) (hne : ip ≠ [])
    (hall : ∀ c ∈ ip, isDigit c = true) (m k : ℕ) :
    decimalLiteral negative (ip ++ (if k = 0 then [] else '.' :: fractionDigits k m)) =
      .val (signed negative
        ((digitsValue (ip ++ (if k = 0 then [] else fractionDigits k m)) : ℚ) * 10 ^ (-(k : ℤ)))) := by
  obtain ⟨hl, hfd, -⟩ := fractionDigits_spec k m
  by_cases hk : k = 0
  · subst hk
    have h := takeWhile_append_all ip [] hall
    have h' := dropWhile_append_all ip [] hall
    simp only [List.append_nil, List.takeWhile_nil, List.dropWhile_nil] at h h'
    simp [decimalLiteral, h, h', fractionPart, hne, exponentPart]
  · have h := takeWhile_append_all ip ('.' :: fractionDigits k m) hall
    have h' := dropWhile_append_all ip ('.' :: fractionDigits k m) hall
    have hdot : isDigit '.' = false := by decide
    have h2 := takeWhile_append_all (fractionDigits k m) [] hfd
    have h2' := dropWhile_append_all (fractionDigits k m) [] hfd
    simp only [List.append_nil, List.takeWhile_nil, List.dropWhile_nil] at h2 h2'
    simp only [List.takeWhile_cons, List.dropWhile_cons, hdot] at h h'
    simp [decimalLiteral, hk, h, h', fractionPart, h2, h2', hne, exponentPart, hl]

theorem isPrefixOf_infinity_of_isDigit {c : Char} (r : List Char) (h : isDigit c = true) :
    "Infinity".data.isPrefixOf (c :: r) = false := by
  have hb := isDigit_bounds h
  have h1 : c ≠ 'I' := by rintro rfl; revert hb; decide
  have : "Infinity".data = 'I' :: "nfinity".data := rfl
  rw [this, List.isPrefixOf]
  simp [Ne.symm h1]

/-- `parseFloat` reads a decimal numeral back as the value it denotes. -/
theorem parseFloatStr_decimalNumeral (negative : Bool) (m k : ℕ) :
    parseFloatStr (decimalNumeral negative m k) = .val (decimalValue negative m k) := by
  obtain ⟨hne, hall, hv⟩ := repr_spec (m / 10 ^ k)
  obtain ⟨hl, -, hfv⟩ := fractionDigits_spec k m
  have hlit := decimalLiteral_numeral negative _ hne hall m k
  obtain ⟨c, r, hcr⟩ := List.exists_cons_of_ne_nil hne
  have hc : isDigit c = true := hall c (by simp [hcr])
  have hval : ((digitsValue ((toString (m / 10 ^ k)).data ++
      (if k = 0 then [] else fractionDigits k m)) : ℕ) : ℚ) * 10 ^ (-(k : ℤ)) = (m : ℚ) / 10 ^ k := by
    have hnat : digitsValue ((toString (m / 10 ^ k)).data ++
        (if k = 0 then [] else fractionDigits k m)) = m := by
      by_cases hk : k = 0
      · subst hk; simpa using hv
      · simp only [hk, if_false]
        rw [digitsValue_append, hv, hl, hfv]
        exact Nat.div_add_mod' m (10 ^ k)
    rw [hnat, zpow_neg, zpow_natCast, div_eq_mul_inv]
  have hbody : parseFloatStr (decimalNumeral negative m k) =
      decimalLiteral negative ((toString (m / 10 ^ k)).data ++
        (if k = 0 then [] else '.' :: fractionDigits k m)) := by
    cases negative with
    | false =>
      simp only [parseFloatStr, decimalNumeral, Bool.false_eq_true, if_false, List.nil_append]
      rw [hcr, List.cons_append, trimStart_cons _ (isWhiteSpace_of_isDigit hc),
        takeSign_of_isDigit _ hc]
      simp only [isPrefixOf_infinity_of_isDigit _ hc, Bool.false_eq_true, if_false]
    | true =>
      simp only [parseFloatStr, decimalNumeral, if_true, List.cons_append, List.nil_append]
      rw [hcr, List.cons_append, trimStart_cons _ (by decide : isWhiteSpace '-' = false)]
      simp only [takeSign, isPrefixOf_infinity_of_isDigit _ hc, Bool.false_eq_true, if_false]
  rw [hbody, hlit, hval]
  cases negative <;> simp [signed, decimalValue]

theorem parseFloatStr_zero : parseFloatStr "0" = .val 0 := by
  have h := parseFloatStr_decimalNumeral false 0 0
  have h0 : decimalNumeral false 0 0 = "0" := by decide
  rw [h0] at h
  rw [h]; simp [decimalValue]

/-! ## Lemmas: `trim` -/

mutual
theorem toStr_total (os : ObjToString) (hos : ∀ fs, ∃ s, os fs = some s) :
    ∀ v : Xml, ∃ s, v.toStr os = some s
  | .str s => ⟨s, rfl⟩
  | .obj fs => by simpa [Xml.toStr] using hos fs
  | .arr xs => by simpa [Xml.toStr] using joinStr_total os hos xs
theorem joinStr_total (os : ObjToString) (hos : ∀ fs, ∃ s, os fs = some s) :
    ∀ xs : List Xml, ∃ s, joinStr os xs = some s
  | [] => ⟨"", rfl⟩
  | [x] => by simpa [joinStr] using toStr_total os hos x
  | x :: y :: rest => by
    obtain ⟨a, ha⟩ := toStr_total os hos x
    obtain ⟨b, hb⟩ := joinStr_total os hos (y :: rest)
    exact ⟨a ++ "," ++ b, by simp [joinStr, ha, hb]⟩
end

theorem toStringJs_total (os : ObjToString) (hos : ∀ fs, ∃ s, os fs = some s)
    (v : Option Xml) : ∃ s, toStringJs os v = .ok s := by
  cases v with
  | none => exact ⟨"undefined", rfl⟩
  | some x =>
    obtain ⟨s, hs⟩ := toStr_total os hos x
    exact ⟨s, by simp [toStringJs, hs]⟩

theorem parseInt_total (os : ObjToString) (hos : ∀ fs, ∃ s, os fs = some s)
    (v : Option Xml) : ∃ n, parseInt os v = .ok n := by
  obtain ⟨s, hs⟩ := toStringJs_total os hos v
  exact ⟨parseIntStr s, by simp [parseInt, hs, Except.map]⟩

theorem parseFloat_total (os : ObjToString) (hos : ∀ fs, ∃ s, os fs = some s)
    (v : Option Xml) : ∃ n, parseFloat os v = .ok n := by
  obtain ⟨s, hs⟩ := toStringJs_total os hos v
  exact ⟨parseFloatStr s, by simp [parseFloat, hs, Except.map]⟩

/-! ## Lemmas: the fields of the record -/

theorem orEmpty_none : orEmpty none = .str "" := rfl

theorem intField_falsy (os : ObjToString) (node : Option Xml) (key : String)
    (h : truthy node = false) : intField os node key = .ok (.val 0) := by
  simp [intField, h, pure, Except.pure]

theorem intField_missing (os : ObjToString) (node : Option Xml) (key : String)
    (ht : truthy node = true) (h : optGet node key = none) :
    intField os node key = .ok .nan := by
  have : parseIntStr "undefined" = .nan := by decide
  simp [intField, ht, h, parseInt, toStringJs, Except.map, this]

theorem floatField_falsy (os : ObjToString) (node : Option Xml) (key : String)
    (h : truthy node = false) : floatField os node key = .ok (.val 0) := by
  simp [floatField, h, pure, Except.pure]

theorem floatField_missing (os : ObjToString) (node : Option Xml) (key : String)
    (ht : truthy node = true) (h : optGet node key = none) :
    floatField os node key = .ok .nan := by
  have : parseFloatStr "undefined" = .nan := by decide
  simp [floatField, ht, h, parseFloat, toStringJs, Except.map, this]

theorem intField_total (os : ObjToString) (hos : ∀ fs, ∃ s, os fs = some s)
    (node : Option Xml) (key : String) : ∃ n, intField os node key = .ok n := by
  by_cases h : truthy node = true
  · simpa [intField, h] using parseInt_total os hos (optGet node key)
  · exact ⟨.val 0, by simp [intField, h, pure, Except.pure]⟩

theorem floatField_total (os : ObjToString) (hos : ∀ fs, ∃ s, os fs = some s)
    (node : Option Xml) (key : String) : ∃ n, floatField os node key = .ok n := by
  by_cases h : truthy node = true
  · simpa [floatField, h] using parseFloat_total os hos (optGet node key)
  · exact ⟨.val 0, by simp [floatField, h, pure, Except.pure]⟩

theorem nameOf_total (os : ObjToString) (hos : ∀ fs, ∃ s, os fs = some s)
    (app : Option Xml) : ∃ n, nameOf os app = .ok n := by
  by_cases h : truthy app = true
  · obtain ⟨a, ha⟩ := toStringJs_total os hos (some (orEmpty (optGet app "First_Name")))
    obtain ⟨b, hb⟩ := toStringJs_total os hos (some (orEmpty (optGet app "Last_Name")))
    exact ⟨trim (a ++ " " ++ b), by simp [nameOf, h, ha, hb, bind, Except.bind, pure, Except.pure]⟩
  · exact ⟨"", by simp [nameOf, h, pure, Except.pure]⟩

/-! ## Lemmas: the accounts -/

theorem amount_default (os : ObjToString) (v : Option Xml)
    (h : v = none ∨ v = some (.str "")) :
    parseFloat os (some (orZero v)) = .ok (.val 0) := by
  have hz : orZero v = .str "0" := by rcases h with h | h <;> subst h <;> rfl
  simp [hz, parseFloat, toStringJs, Xml.toStr, Except.map, parseFloatStr_zero]

theorem accountOfElement_ok (os : ObjToString) (acc : Xml) (a : CreditAccount) :
    accountOfElement os acc = .ok a ↔
      ∃ amountOverdue currentBalance,
        parseFloat os (some (orZero (acc.get "Amount_Past_Due"))) = .ok amountOverdue ∧
        parseFloat os (some (orZero (acc.get "Current_Balance"))) = .ok currentBalance ∧
        a = { type := orEmpty (acc.get "Account_Type"),
              bank := orEmpty (acc.get "Subscriber_Name"),
              accountNumber := orEmpty (acc.get "Account_Number"), address := "",
              amountOverdue := amountOverdue, currentBalance := currentBalance } := by
  simp only [accountOfElement, bind_ok, pure_ok]
  constructor
  · rintro ⟨x, hx, y, hy, rfl⟩; exact ⟨x, y, hx, hy, rfl⟩
  · rintro ⟨x, y, hx, hy, rfl⟩; exact ⟨x, hx, y, hy, rfl⟩

/-- The record pushed for a single node is built as the callback of `map` builds it. -/
theorem accountOfSingle_eq (os : ObjToString) (node : Xml) :
    accountOfSingle os node = accountOfElement os node := rfl

theorem accountOfElement_total (os : ObjToString) (hos : ∀ fs, ∃ s, os fs = some s)
    (acc : Xml) : ∃ a, accountOfElement os acc = .ok a := by
  obtain ⟨x, hx⟩ := parseFloat_total os hos (some (orZero (acc.get "Amount_Past_Due")))
  obtain ⟨y, hy⟩ := parseFloat_total os hos (some (orZero (acc.get "Current_Balance")))
  exact ⟨_, (accountOfElement_ok os acc _).2 ⟨x, y, hx, hy, rfl⟩⟩

theorem arrayMap_ok {α β : Type} (f : α → Except JsError β) :
    ∀ (l : List α) (out : List β),
      arrayMap f l = .ok out ↔ List.Forall₂ (fun x y => f x = .ok y) l out := by
  intro l
  induction l with
  | nil =>
    intro out
    cases out <;> simp [arrayMap]
  | cons x xs ih =>
    intro out
    cases hx : f x with
    | error e =>
      simp only [arrayMap, hx, reduceCtorEq, false_iff]
      intro h
      cases h with
      | cons h1 _ => rw [hx] at h1; cases h1
    | ok y =>
      cases hxs : arrayMap f xs with
      | error e =>
        simp only [arrayMap, hx, hxs, reduceCtorEq, false_iff]
        intro h
        cases h with
        | cons h1 h2 =>
          rw [← ih] at h2
          rw [hxs] at h2; cases h2
      | ok ys =>
        simp only [arrayMap, hx, hxs, Except.ok.injEq]
        constructor
        · rintro rfl
          exact List.Forall₂.cons hx ((ih ys).1 hxs)
        · intro h
          cases h with
          | cons h1 h2 =>
            rw [hx] at h1
            have := (ih _).2 h2
            rw [hxs] at this
            cases h1; cases this; rfl

theorem arrayMap_total {α β : Type} (f : α → Except JsError β) (l : List α)
    (h : ∀ x ∈ l, ∃ y, f x = .ok y) : ∃ out, arrayMap f l = .ok out := by
  induction l with
  | nil => exact ⟨[], rfl⟩
  | cons x xs ih =>
    obtain ⟨y, hy⟩ := h x (by simp)
    obtain ⟨ys, hys⟩ := ih (fun z hz => h z (by simp [hz]))
    exact ⟨y :: ys, by simp [arrayMap, hy, hys]⟩

theorem forall₂_index {α β : Type} {R : α → β → Prop} {l : List α} {out : List β}
    (h : List.Forall₂ R l out) :
    out.length = l.length ∧ ∀ (i : ℕ) (hi : i < l.length), ∃ y, out[i]? = some y ∧ R l[i] y := by
  induction h with
  | nil => exact ⟨rfl, fun i hi => absurd hi (by simp)⟩
  | cons hxy _ ih =>
    refine ⟨by simp [ih.1], ?_⟩
    intro i hi
    cases i with
    | zero => exact ⟨_, by simp, hxy⟩
    | succ j =>
      obtain ⟨y, hy, hr⟩ := ih.2 j (by simpa using hi)
      exact ⟨y, by simpa using hy, by simpa using hr⟩

theorem forall₂_mem {α β : Type} {R : α → β → Prop} {l : List α} {out : List β}
    (h : List.Forall₂ R l out) : ∀ y ∈ out, ∃ x ∈ l, R x y := by
  induction h with
  | nil => intro y hy; simp at hy
  | cons hxy _ ih =>
    intro y hy
    rcases List.mem_cons.1 hy with rfl | hy
    · exact ⟨_, by simp, hxy⟩
    · obtain ⟨x, hx, hr⟩ := ih y hy
      exact ⟨x, by simp [hx], hr⟩

theorem creditAccounts_none (os : ObjToString) : creditAccounts os none = .ok [] := rfl

theorem creditAccounts_arr (os : ObjToString) (items : List Xml) :
    creditAccounts os (some (.arr items)) = arrayMap (accountOfElement os) items := rfl

theorem creditAccounts_single (os : ObjToString) (node : Xml) (ht : node.truthy = true)
    (hna : ∀ items, node ≠ .arr items) :
    creditAccounts os (some node) = (accountOfElement os node).map fun a => [a] := by
  cases node with
  | arr items => exact absurd rfl (hna items)
  | str s =>
    simp only [creditAccounts, ht, if_true, accountOfSingle_eq]
    cases accountOfElement os (.str s) <;> rfl
  | obj fs =>
    simp only [creditAccounts, ht, if_true, accountOfSingle_eq]
    cases accountOfElement os (.obj fs) <;> rfl

theorem creditAccounts_empty_text (os : ObjToString) :
    creditAccounts os (some (.str "")) = .ok [] := rfl

/-- Every record of `creditAccounts` is built by the per-record extraction from one of the
source nodes. -/
theorem creditAccounts_mem (os : ObjToString) (root : Xml) (out : List CreditAccount)
    (h : creditAccounts os (accountDetails root) = .ok out) :
    ∀ a ∈ out, ∃ node ∈ accountNodes root, accountOfElement os node = .ok a := by
  unfold accountNodes
  cases hd : accountDetails root with
  | none =>
    rw [hd] at h
    simp only [creditAccounts, pure_ok] at h
    subst h; intro a ha; simp at ha
  | some v =>
    rw [hd] at h
    cases v with
    | arr items =>
      rw [creditAccounts_arr, arrayMap_ok] at h
      exact forall₂_mem h
    | str s =>
      by_cases ht : (Xml.str s).truthy = true
      · rw [creditAccounts_single os _ ht (by simp), map_ok] at h
        obtain ⟨a, ha, rfl⟩ := h
        intro b hb
        simp only [List.mem_singleton] at hb
        subst hb
        exact ⟨_, by simp, ha⟩
      · simp only [creditAccounts, ht, pure_ok] at h
        simp only [Bool.false_eq_true, if_false, pure_ok] at h
        subst h; intro a ha; simp at ha
    | obj fs =>
      rw [creditAccounts_single os (.obj fs) rfl (by simp), map_ok] at h
      obtain ⟨a, ha, rfl⟩ := h
      intro b hb
      simp only [List.mem_singleton] at hb
      subst hb
      exact ⟨_, by simp, ha⟩

theorem creditAccounts_total (os : ObjToString) (hos : ∀ fs, ∃ s, os fs = some s)
    (v : Option Xml) : ∃ out, creditAccounts os v = .ok out := by
  cases v with
  | none => exact ⟨[], rfl⟩
  | some x =>
    cases x with
    | arr items =>
      rw [creditAccounts_arr]
      exact arrayMap_total _ _ (fun y _ => accountOfElement_total os hos y)
    | str s =>
      by_cases ht : (Xml.str s).truthy = true
      · obtain ⟨a, ha⟩ := accountOfElement_total os hos (.str s)
        exact ⟨[a], by rw [creditAccounts_single os _ ht (by simp), ha]; rfl⟩
      · exact ⟨[], by simp [creditAccounts, ht, pure, Except.pure]⟩
    | obj fs =>
      obtain ⟨a, ha⟩ := accountOfElement_total os hos (.obj fs)
      exact ⟨[a], by rw [creditAccounts_single os (.obj fs) rfl (by simp), ha]; rfl⟩

/-! ## Lemmas: the whole record -/

theorem creditData_ok (os : ObjToString) (result : Obj) (r : CreditData) :
    creditData os result = .ok r ↔
      ∃ root, lookup "INProfileResponse" result = some root ∧ root.truthy = true ∧
        creditDataOf os root = .ok r := by
  unfold creditData rootOf
  cases hl : lookup "INProfileResponse" result with
  | none => simp
  | some root =>
    by_cases ht : root.truthy = true
    · simp [ht]
    · simp [ht]

theorem creditDataOf_ok (os : ObjToString) (root : Xml) (r : CreditData) :
    creditDataOf os root = .ok r ↔
      ∃ name creditScore totalAccounts activeAccounts closedAccounts cba saa uaa accounts,
        nameOf os (applicant root) = .ok name ∧
        intField os (score root) "BureauScore" = .ok creditScore ∧
        intField os (creditAccountSummary root) "CreditAccountTotal" = .ok totalAccounts ∧
        intField os (creditAccountSummary root) "CreditAccountActive" = .ok activeAccounts ∧
        intField os (creditAccountSummary root) "CreditAccountClosed" = .ok closedAccounts ∧
        floatField os (totalOutstanding root) "Outstanding_Balance_All" = .ok cba ∧
        floatField os (totalOutstanding root) "Outstanding_Balance_Secured" = .ok saa ∧
        floatField os (totalOutstanding root) "Outstanding_Balance_UnSecured" = .ok uaa ∧
        creditAccounts os (accountDetails root) = .ok accounts ∧
        r = { basicDetails :=
                { name := name,
                  mobilePhone := orEmpty (optGet (applicant root) "MobilePhoneNumber"),
                  pan := orEmpty (optGet (applicant root) "IncomeTaxPan"),
                  creditScore := creditScore },
              reportSummary :=
                { totalAccounts := totalAccounts, activeAccounts := activeAccounts,
                  closedAccounts := closedAccounts, currentBalanceAmount := cba,
                  securedAccountsAmount := saa, unsecuredAccountsAmount := uaa,
                  lastSevenDaysCreditEnquiries := .val 0 },
              creditAccounts := accounts } := by
  simp only [creditDataOf, bind_ok, pure_ok]
  constructor
  · rintro ⟨name, h1, cs, h2, ta, h3, aa, h4, ca, h5, cba, h6, saa, h7, uaa, h8, accs, h9, h10⟩
    exact ⟨name, cs, ta, aa, ca, cba, saa, uaa, accs, h1, h2, h3, h4, h5, h6, h7, h8, h9, h10.symm⟩
  · rintro ⟨name, cs, ta, aa, ca, cba, saa, uaa, accs, h1, h2, h3, h4, h5, h6, h7, h8, h9, h10⟩
    exact ⟨name, h1, cs, h2, ta, h3, aa, h4, ca, h5, cba, h6, saa, h7, uaa, h8, accs, h9, h10.symm⟩

/-- With a conversion of objects that does not throw, every truthy root yields a record. -/
theorem creditDataOf_total (os : ObjToString) (hos : ∀ fs, ∃ s, os fs = some s) (root : Xml) :
    ∃ r, creditDataOf os root = .ok r := by
  obtain ⟨name, h1⟩ := nameOf_total os hos (applicant root)
  obtain ⟨cs, h2⟩ := intField_total os hos (score root) "BureauScore"
  obtain ⟨ta, h3⟩ := intField_total os hos (creditAccountSummary root) "CreditAccountTotal"
  obtain ⟨aa, h4⟩ := intField_total os hos (creditAccountSummary root) "CreditAccountActive"
  obtain ⟨ca, h5⟩ := intField_total os hos (creditAccountSummary root) "CreditAccountClosed"
  obtain ⟨cba, h6⟩ := floatField_total os hos (totalOutstanding root) "Outstanding_Balance_All"
  obtain ⟨saa, h7⟩ :=
    floatField_total os hos (totalOutstanding root) "Outstanding_Balance_Secured"
  obtain ⟨uaa, h8⟩ :=
    floatField_total os hos (totalOutstanding root) "Outstanding_Balance_UnSecured"
  obtain ⟨accs, h9⟩ := creditAccounts_total os hos (accountDetails root)
  exact ⟨_, (creditDataOf_ok os root _).2
    ⟨name, cs, ta, aa, ca, cba, saa, uaa, accs, h1, h2, h3, h4, h5, h6, h7, h8, h9, rfl⟩⟩

/-! ## Lemmas: the handler -/

theorem lookup_filter_ne (files : List (String × String)) (path : String) :
    (files.filter fun f => f.1 != path).lookup path = none := by
  induction files with
  | nil => rfl
  | cons f fs ih =>
    by_cases hf : f.1 = path
    · simp [List.filter_cons, hf, ih]
    · have hne : (path == f.1) = false := by
        simpa using fun h => hf h.symm
      simp [List.filter_cons, hf, List.lookup, hne, ih]

theorem saveAndUnlink_error_files (env : Env) (path : String) (w w' : World)
    (data : CreditData) (e : JsError) (h : saveAndUnlink env path w data = (.error e, w')) :
    w'.files = w.files := by
  unfold saveAndUnlink unlink at h
  cases hs : env.save data with
  | error e1 =>
    simp only [hs, Prod.mk.injEq] at h
    obtain ⟨-, rfl⟩ := h; rfl
  | ok id =>
    by_cases hf : w.hasFile path = true
    · simp [hs, World.hasFile, (by simpa [World.hasFile] using hf : (w.files.lookup path).isSome = true)] at h
    · simp only [hs, World.hasFile, (by simpa [World.hasFile] using hf :
        ¬ (w.files.lookup path).isSome = true), if_false, Prod.mk.injEq] at h
      obtain ⟨-, rfl⟩ := h; rfl

theorem saveAndUnlink_ok_files (env : Env) (path : String) (w w' : World)
    (data : CreditData) (id : String) (h : saveAndUnlink env path w data = (.ok id, w')) :
    w'.hasFile path = false ∧ w'.handed = w.handed ++ [data] ∧ w'.stored = w.stored ++ [data] := by
  unfold saveAndUnlink unlink at h
  cases hs : env.save data with
  | error e1 => simp [hs] at h
  | ok id1 =>
    by_cases hf : w.hasFile path = true
    · simp only [hs, World.hasFile, (by simpa [World.hasFile] using hf :
        (w.files.lookup path).isSome = true), if_true, Prod.mk.injEq] at h
      obtain ⟨-, rfl⟩ := h
      simp [World.hasFile, lookup_filter_ne]
    · simp [hs, World.hasFile, (by simpa [World.hasFile] using hf :
        ¬ (w.files.lookup path).isSome = true)] at h

/-- When the body of `try` throws, the files are as they were: `unlink` has not removed the
uploaded file. -/
theorem tryBlock_error_files (env : Env) (path : String) (w w' : World) (e : JsError)
    (h : tryBlock env path w = (.error e, w')) : w'.files = w.files := by
  unfold tryBlock at h
  cases h1 : readFile path w with
  | error e1 =>
    simp only [h1, Prod.mk.injEq] at h
    obtain ⟨-, rfl⟩ := h; rfl
  | ok xmlData =>
    cases h2 : env.parseString xmlData with
    | error e2 =>
      simp only [h1, h2, Prod.mk.injEq] at h
      obtain ⟨-, rfl⟩ := h; rfl
    | ok parsed =>
      cases parsed with
      | none =>
        simp only [h1, h2, Prod.mk.injEq] at h
        obtain ⟨-, rfl⟩ := h; rfl
      | some result =>
        cases h3 : creditData env.objToString result with
        | error e3 =>
          simp only [h1, h2, h3, Prod.mk.injEq] at h
          obtain ⟨-, rfl⟩ := h; rfl
        | ok data =>
          simp only [h1, h2, h3] at h
          exact saveAndUnlink_error_files env path w w' data e h

/-- When the body of `try` completes, the uploaded file is gone. -/
theorem tryBlock_ok_files (env : Env) (path : String) (w w' : World) (id : String)
    (h : tryBlock env path w = (.ok id, w')) : w'.hasFile path = false := by
  unfold tryBlock at h
  cases h1 : readFile path w with
  | error e1 => simp [h1] at h
  | ok xmlData =>
    cases h2 : env.parseString xmlData with
    | error e2 => simp [h1, h2] at h
    | ok parsed =>
      cases parsed with
      | none => simp [h1, h2] at h
      | some result =>
        cases h3 : creditData env.objToString result with
        | error e3 => simp [h1, h2, h3] at h
        | ok data =>
          simp only [h1, h2, h3] at h
          exact (saveAndUnlink_ok_files env path w w' data id h).1

/-! ## The claims -/

/-- C1: when the parsed document has no top-level `INProfileResponse`, the assembly throws
the schema error, and the handler answers 500 with its message and leaves the world as it
was: no record is handed to `save` and none is stored. -/
theorem missing_root_rejected (env : Env) (path content : String) (w : World) (result : Obj)
    (hfile : readFile path w = .ok content)
    (hparse : env.parseString content = .ok (some result))
    (hroot : lookup "INProfileResponse" result = none) :
    creditData env.objToString result = .error schemaError ∧
    upload env (some path) w =
      (⟨500, .error
        "Error processing file: Invalid XML format: missing <INProfileResponse> root element."⟩,
        w) ∧
    (upload env (some path) w).2.handed = w.handed ∧
    (upload env (some path) w).2.stored = w.stored := by
  have h1 : creditData env.objToString result = .error schemaError := by
    simp [creditData, rootOf, hroot]
  have h2 : upload env (some path) w =
      (⟨500, .error
        "Error processing file: Invalid XML format: missing <INProfileResponse> root element."⟩,
        w) := by
    simp only [upload, tryBlock, hfile, hparse, h1]
    rfl
  exact ⟨h1, h2, by rw [h2], by rw [h2]⟩

/-- C1 at the document `<Other/>`. -/
theorem missing_root_rejected_witness :
    creditData ordinaryObject otherDocument = .error schemaError ∧
    upload (exampleEnv otherDocument) (some "uploads/tmp1") exampleWorld =
      (⟨500, .error
        "Error processing file: Invalid XML format: missing <INProfileResponse> root element."⟩,
        exampleWorld) ∧
    (upload (exampleEnv otherDocument) (some "uploads/tmp1") exampleWorld).2.handed = [] ∧
    (upload (exampleEnv otherDocument) (some "uploads/tmp1") exampleWorld).2.stored = [] :=
  missing_root_rejected (exampleEnv otherDocument) "uploads/tmp1" "<xml/>" exampleWorld
    otherDocument rfl rfl rfl

/-- C2, at the failing input: for `<INProfileResponse/>`, whose root the parser delivers as
the empty string, the assembly throws the schema error instead of returning the record of
defaults, and the handler answers 500 without handing a record to `save`. -/
theorem empty_root_rejected :
    creditData ordinaryObject emptyRootDocument = .error schemaError ∧
    upload (exampleEnv emptyRootDocument) (some "uploads/tmp1") exampleWorld =
      (⟨500, .error
        "Error processing file: Invalid XML format: missing <INProfileResponse> root element."⟩,
        exampleWorld) :=
  ⟨rfl, rfl⟩

/-- What does hold for C2: a root that is truthy (a text that is not empty, or an object)
and has none of the children the handler reads yields the record of defaults, whatever the
conversion of objects does. -/
theorem bare_root_defaults (os : ObjToString) (result : Obj) (root : Xml)
    (hroot : lookup "INProfileResponse" result = some root) (ht : root.truthy = true)
    (h1 : root.get "Current_Application" = none) (h2 : root.get "SCORE" = none)
    (h3 : root.get "CAIS_Account" = none) :
    creditData os result = .ok defaultRecord := by
  rw [creditData_ok]
  refine ⟨root, hroot, ht, ?_⟩
  rw [creditDataOf_ok]
  have ha : applicant root = none := by simp [applicant, h1, optGet]
  have hs : score root = none := by simp [score, h2]
  have hc : creditAccountSummary root = none := by
    simp [creditAccountSummary, caisSummary, h3, optGet]
  have ho : totalOutstanding root = none := by
    simp [totalOutstanding, caisSummary, h3, optGet]
  have hd : accountDetails root = none := by simp [accountDetails, h3, optGet]
  refine ⟨"", .val 0, .val 0, .val 0, .val 0, .val 0, .val 0, .val 0, [], ?_, ?_, ?_, ?_, ?_, ?_,
    ?_, ?_, ?_, ?_⟩
  · rw [ha]; rfl
  · rw [hs]; rfl
  · rw [hc]; rfl
  · rw [hc]; rfl
  · rw [hc]; rfl
  · rw [ho]; rfl
  · rw [ho]; rfl
  · rw [ho]; rfl
  · rw [hd]; rfl
  · rw [ha]; rfl

/-- A root that only carries an attribute, and a root that is blank text. -/
theorem bare_root_defaults_example :
    creditData nullPrototypeObject bareRootDocument = .ok defaultRecord ∧
    creditData ordinaryObject (report (.str " ")) = .ok defaultRecord :=
  ⟨bare_root_defaults _ _ _ rfl rfl rfl rfl rfl, bare_root_defaults _ _ _ rfl rfl rfl rfl rfl⟩

/-- C3, at the failing input: a single empty `<CAIS_Account_DETAILS/>` element, which the
parser delivers as the empty string, contributes no record, while the same node inside an
array contributes the record of defaults (two empty elements give two such records). -/
theorem single_empty_account_dropped :
    creditAccounts ordinaryObject (some (.str "")) = .ok [] ∧
    creditAccounts ordinaryObject (some (.arr [.str ""])) = .ok [defaultAccount] ∧
    creditAccounts ordinaryObject (some (.arr [.str "", .str ""])) =
      .ok [defaultAccount, defaultAccount] ∧
    ∃ r, creditData ordinaryObject emptyAccountDocument = .ok r ∧ r.creditAccounts = [] := by
  have hrec : accountOfElement ordinaryObject (.str "") = .ok defaultAccount := by
    rw [accountOfElement_ok]
    exact ⟨.val 0, .val 0, amount_default _ _ (Or.inl rfl), amount_default _ _ (Or.inl rfl), rfl⟩
  refine ⟨rfl, ?_, ?_, _, rfl, rfl⟩
  · rw [creditAccounts_arr, arrayMap_ok]
    exact List.Forall₂.cons hrec List.Forall₂.nil
  · rw [creditAccounts_arr, arrayMap_ok]
    exact List.Forall₂.cons hrec (List.Forall₂.cons hrec List.Forall₂.nil)

/-- What does hold for C3: an absent `CAIS_Account_DETAILS` gives no record; a single truthy
node gives the one record of that node; an array gives the records of its elements, as many
as there are elements and in their order; and the single branch builds its record as the
array branch does. -/
theorem account_list_shapes (os : ObjToString) :
    creditAccounts os none = .ok [] ∧
    (∀ node, node.truthy = true → (∀ items, node ≠ .arr items) →
      creditAccounts os (some node) = (accountOfElement os node).map fun a => [a]) ∧
    (∀ node, accountOfSingle os node = accountOfElement os node) ∧
    (∀ items out, creditAccounts os (some (.arr items)) = .ok out →
      out.length = items.length ∧
      ∀ (i : ℕ) (hi : i < items.length),
        ∃ a, out[i]? = some a ∧ accountOfElement os items[i] = .ok a) ∧
    ((∀ fs, ∃ s, os fs = some s) → ∀ items, ∃ out, creditAccounts os (some (.arr items)) = .ok out) := by
  refine ⟨rfl, creditAccounts_single os, fun _ => rfl, ?_, ?_⟩
  · intro items out h
    rw [creditAccounts_arr, arrayMap_ok] at h
    exact forall₂_index h
  · intro hos items
    exact creditAccounts_total os hos _

/-- C5, at the failing input: with `Credit_Account` and `Total_Outstanding_Balance` present
and some of their sub-fields absent, the fields of the absent sub-fields are `NaN`, not
`0`. -/
theorem partial_summary_gives_nan :
    ∃ r, creditData ordinaryObject partialSummaryDocument = .ok r ∧
      r.reportSummary.totalAccounts = .nan ∧ r.reportSummary.closedAccounts = .nan ∧
      r.reportSummary.securedAccountsAmount = .nan ∧
      r.reportSummary.unsecuredAccountsAmount = .nan ∧
      r.reportSummary.activeAccounts = .val 1 :=
  ⟨_, rfl, rfl, rfl, rfl, rfl, rfl⟩

/-- What does hold for C5: a summary field is `0` when its parent node is absent or empty,
and `NaN` when the parent is there and the sub-field is not. -/
theorem summary_field_absent (os : ObjToString) (node : Option Xml) (key : String) :
    (truthy node = false →
      intField os node key = .ok (.val 0) ∧ floatField os node key = .ok (.val 0)) ∧
    (truthy node = true → optGet node key = none →
      intField os node key = .ok .nan ∧ floatField os node key = .ok .nan) :=
  ⟨fun h => ⟨intField_falsy os node key h, floatField_falsy os node key h⟩,
    fun ht h => ⟨intField_missing os node key ht h, floatField_missing os node key ht h⟩⟩

/-- C8, at the failing inputs: after an upload whose document lacks the root, whose bytes
the parser rejects, or whose record the store rejects, the handler has answered 500 and the
uploaded file is still there. -/
theorem temp_file_left_after_failure :
    ((upload (exampleEnv otherDocument) (some "uploads/tmp1") exampleWorld).1.status = 500 ∧
      (upload (exampleEnv otherDocument) (some "uploads/tmp1") exampleWorld).2.hasFile
        "uploads/tmp1" = true) ∧
    ((upload malformedEnv (some "uploads/tmp1") exampleWorld).1.status = 500 ∧
      (upload malformedEnv (some "uploads/tmp1") exampleWorld).2.hasFile "uploads/tmp1" = true) ∧
    ((upload (failingStoreEnv ashaDocument) (some "uploads/tmp1") exampleWorld).1.status = 500 ∧
      (upload (failingStoreEnv ashaDocument) (some "uploads/tmp1") exampleWorld).2.hasFile
        "uploads/tmp1" = true) :=
  ⟨⟨rfl, rfl⟩, ⟨rfl, rfl⟩, ⟨rfl, rfl⟩⟩

/-- What does hold for C8: the handler removes the uploaded file exactly when it answers
200; whenever it answers 500 the files are as they were before the request. -/
theorem upload_files (env : Env) (path : String) (w : World) :
    ((upload env (some path) w).1.status = 200 →
      (upload env (some path) w).2.hasFile path = false) ∧
    ((upload env (some path) w).1.status = 500 → (upload env (some path) w).2.files = w.files) := by
  cases ht : tryBlock env path w with
  | mk outcome w' =>
    cases outcome with
    | error e =>
      have := tryBlock_error_files env path w w' e ht
      simp [upload, ht, this]
    | ok id =>
      have := tryBlock_ok_files env path w w' id ht
      simp [upload, ht, this]

/-- A successful upload of the end-to-end scenario removes the uploaded file. -/
theorem upload_files_example :
    (upload (exampleEnv ashaDocument) (some "uploads/tmp1") exampleWorld).1.status = 200 ∧
    (upload (exampleEnv ashaDocument) (some "uploads/tmp1") exampleWorld).2.hasFile
      "uploads/tmp1" = false :=
  ⟨rfl, (upload_files _ _ _).1 rfl⟩

/-- C10: in every assembled record `lastSevenDaysCreditEnquiries` is `0` and the address of
every account, from the single branch or from the array branch, is the empty string; and a
truthy root does yield a record when the conversion of objects does not throw. -/
theorem fixed_fields (os : ObjToString) (result : Obj) :
    (∀ r, creditData os result = .ok r →
      r.reportSummary.lastSevenDaysCreditEnquiries = .val 0 ∧
      ∀ a ∈ r.creditAccounts, a.address = "") ∧
    ((∀ fs, ∃ s, os fs = some s) → ∀ root, lookup "INProfileResponse" result = some root →
      root.truthy = true → ∃ r, creditData os result = .ok r) := by
  constructor
  · intro r h
    obtain ⟨root, -, -, hr⟩ := (creditData_ok os result r).1 h
    obtain ⟨name, cs, ta, aa, ca, cba, saa, uaa, accs, -, -, -, -, -, -, -, -, h9, rfl⟩ :=
      (creditDataOf_ok os root r).1 hr
    refine ⟨rfl, ?_⟩
    intro a ha
    obtain ⟨node, -, hacc⟩ := creditAccounts_mem os root accs h9 a ha
    obtain ⟨x, y, -, -, rfl⟩ := (accountOfElement_ok os node a).1 hacc
    rfl
  · intro hos root hroot ht
    obtain ⟨r, hr⟩ := creditDataOf_total os hos root
    exact ⟨r, (creditData_ok os result r).2 ⟨root, hroot, ht, hr⟩⟩

/-- C10 at the end-to-end scenario. -/
theorem fixed_fields_witness :
    ∃ r, creditData ordinaryObject ashaDocument = .ok r ∧
      r.reportSummary.lastSevenDaysCreditEnquiries = .val 0 ∧
      r.creditAccounts.map (fun a => a.address) = ["", ""] ∧
      ∀ a ∈ r.creditAccounts, a.address = "" := by
  obtain ⟨r, hr⟩ := (fixed_fields ordinaryObject ashaDocument).2 (fun _ => ⟨_, rfl⟩) ashaRoot rfl rfl
  obtain ⟨h1, h2⟩ := (fixed_fields ordinaryObject ashaDocument).1 r hr
  refine ⟨r, hr, h1, ?_, h2⟩
  have hr' : creditData ordinaryObject ashaDocument = .ok _ := rfl
  rw [hr'] at hr
  cases hr
  rfl

/-- Why the conversion of objects is a parameter: with objects that have no prototype, a
`BureauScore` element that carries an attribute makes the assembly throw a `TypeError`,
while with ordinary objects the same document yields a record whose score is `NaN`. -/
theorem object_conversion_example :
    creditData nullPrototypeObject attributeScoreDocument = .error typeError ∧
    ∃ r, creditData ordinaryObject attributeScoreDocument = .ok r ∧
      r.basicDetails.creditScore = .nan :=
  ⟨rfl, _, rfl, rfl⟩

end CreditSea
